import Mathlib

/-!
Shallow embedding of the job_snatcher pipeline core (ingestion guard,
score combiner, remote-compute availability manager, matcher stages and
the orchestrating DAG tasks), together with proofs of the specified
properties.

Modelling conventions:
* Python floats carrying scores are modelled as exact rationals (`ℚ`);
  `round(x, 4)` is modelled as round-half-even on the exact value.
* The database (SQLAlchemy session over the `job_applications` table) is
  modelled as a list of `JobRecord`s; `query(...).first()` is `List.find?`
  and a mutation of the found row is an update of the first matching
  record.
* Network / LLM / parser effects are oracles (`Except`-valued functions)
  carried in environment structures; a Python exception raised by an
  external call is the `.error` case of its oracle.
* Timestamps are abstract naturals.
-/

namespace JobSnatcher

/-- Round-half-even of a rational to an integer: the behaviour of
Python `round` on exact values (ties go to the even neighbour). -/
def roundHalfEven (q : ℚ) : ℤ :=
  let f : ℤ := ⌊q⌋
  let frac : ℚ := q - f
  if frac < 1/2 then f
  else if 1/2 < frac then f + 1
  else if f % 2 = 0 then f else f + 1

/-- Python `round(q, 4)`: round to four decimal digits, ties to even. -/
def round4 (q : ℚ) : ℚ := (roundHalfEven (q * 10000) : ℚ) / 10000

/-- Python truthiness of an optional string: `None` and `''` are falsy.
Models checks of the form `if not job.job_description:`. -/
def optStrFalsy : Option String → Bool
  | none => true
  | some s => s.isEmpty

/-- One row of the `job_applications` table (`src/db.py`), restricted to
the fields the pipeline core reads or writes.  Scores are optional
(nullable columns). -/
structure JobRecord where
  id : String
  job_url : String
  job_title : String
  company_name : String
  job_posting_html : Option String
  job_description : Option String
  date_found : ℕ
  status : String
  cosine_match_score : Option ℚ
  reasoning_match_score : Option ℚ
  combined_match_score : Option ℚ
  reasoning_explanation : Option String
  cover_letter_draft : Option String
  cv_variant_generated : Option String
  source : String
  deriving Repr, DecidableEq

/-- The job-application store: the rows of the table, in insertion order. -/
abbrev DB := List JobRecord

/-- `db.query(JobApplication).filter_by(id=job_id).first()`. -/
def dbGet (db : DB) (jobId : String) : Option JobRecord :=
  db.find? (fun r => r.id == jobId)

/-- `db.query(JobApplication).filter_by(job_url=url).first()`. -/
def dbFindByUrl (db : DB) (url : String) : Option JobRecord :=
  db.find? (fun r => r.job_url == url)

/-- Mutating the row returned by `first()` and committing: the first
record whose id matches is replaced by `f` applied to it. -/
def dbUpdate (db : DB) (jobId : String) (f : JobRecord → JobRecord) : DB :=
  match db with
  | [] => []
  | r :: rest => if r.id == jobId then f r :: rest else r :: dbUpdate rest jobId f

theorem dbGet_cons_pos (r : JobRecord) (rest : DB) (i : String) (h : r.id = i) :
    dbGet (r :: rest) i = some r := by
  simp only [dbGet]
  exact List.find?_cons_of_pos rest (beq_iff_eq.mpr h)

theorem dbGet_cons_neg (r : JobRecord) (rest : DB) (i : String) (h : ¬ r.id = i) :
    dbGet (r :: rest) i = dbGet rest i := by
  simp only [dbGet]
  exact List.find?_cons_of_neg rest (by simp [h])

theorem dbGet_dbUpdate (db : DB) (j : String) (f : JobRecord → JobRecord)
    (hf : ∀ r, (f r).id = r.id) (i : String) :
    dbGet (dbUpdate db j f) i =
      if i = j then (dbGet db j).map f else dbGet db i := by
  induction db with
  | nil => simp [dbGet, dbUpdate]
  | cons r rest ih =>
    simp only [dbUpdate]
    by_cases hj : r.id = j
    · rw [if_pos (beq_iff_eq.mpr hj)]
      by_cases hij : i = j
      · rw [dbGet_cons_pos (f r) rest i (by rw [hf]; exact hj.trans hij.symm),
            if_pos hij, dbGet_cons_pos r rest j hj]
        rfl
      · rw [dbGet_cons_neg (f r) rest i (by rw [hf]; exact fun h => hij (h.symm.trans hj)),
            if_neg hij, dbGet_cons_neg r rest i (fun h => hij (h.symm.trans hj))]
    · rw [if_neg (by simp [hj])]
      by_cases hri : r.id = i
      · have hij : ¬ i = j := fun h => hj (hri.trans h)
        rw [dbGet_cons_pos r (dbUpdate rest j f) i hri, if_neg hij,
            dbGet_cons_pos r rest i hri]
      · rw [dbGet_cons_neg r (dbUpdate rest j f) i hri, ih]
        by_cases hij : i = j
        · rw [if_pos hij, if_pos hij, dbGet_cons_neg r rest j hj]
        · rw [if_neg hij, if_neg hij, dbGet_cons_neg r rest i hri]

theorem dbGet_append_none (db : DB) (job : JobRecord) (i : String)
    (h : dbGet db i = none) :
    dbGet (db ++ [job]) i = if job.id = i then some job else none := by
  simp only [dbGet] at h ⊢
  rw [List.find?_append, h]
  by_cases hid : job.id = i
  · rw [if_pos hid, Option.none_or]
    exact List.find?_cons_of_pos [] (beq_iff_eq.mpr hid)
  · rw [if_neg hid, Option.none_or]
    rw [List.find?_cons_of_neg [] (by simp [hid])]
    rfl

theorem dbFindByUrl_append_none (db : DB) (job : JobRecord) (u : String)
    (h : dbFindByUrl db u = none) :
    dbFindByUrl (db ++ [job]) u = if job.job_url = u then some job else none := by
  simp only [dbFindByUrl] at h ⊢
  rw [List.find?_append, h]
  by_cases hu : job.job_url = u
  · rw [if_pos hu, Option.none_or]
    exact List.find?_cons_of_pos [] (beq_iff_eq.mpr hu)
  · rw [if_neg hu, Option.none_or]
    rw [List.find?_cons_of_neg [] (by simp [hu])]
    rfl

/-! ### Score combiner (`src/matchers/combine.py`) -/

/-- `COSINE_WEIGHT` from `combine.py`. -/
def COSINE_WEIGHT : ℚ := 3/10

/-- `REASONING_WEIGHT` from `combine.py`. -/
def REASONING_WEIGHT : ℚ := 7/10

/-- Accumulated return value of `combine_scores`. -/
structure CombineResult where
  updated : ℕ
  skipped : ℕ
  results : List (String × ℚ)
  deriving Repr, DecidableEq

/-- `job.combined_match_score = combined; db.commit()`. -/
def setCombined (v : ℚ) (r : JobRecord) : JobRecord :=
  { r with combined_match_score := some v }

/-- One iteration of the loop in `combine_scores`: look the job up; a
missing job or a missing cosine score is skipped; otherwise the combined
score is the weighted sum (or the cosine score alone when no reasoning
score is present), rounded to 4 digits, written back and reported. -/
def combineStep (db : DB) (acc : CombineResult) (jobId : String) :
    DB × CombineResult :=
  match dbGet db jobId with
  | none => (db, { acc with skipped := acc.skipped + 1 })
  | some job =>
    match job.cosine_match_score with
    | none => (db, { acc with skipped := acc.skipped + 1 })
    | some cosine =>
      let combined :=
        match job.reasoning_match_score with
        | some reasoning => COSINE_WEIGHT * cosine + REASONING_WEIGHT * reasoning
        | none => cosine
      let combined := round4 combined
      (dbUpdate db jobId (setCombined combined),
       { acc with
           updated := acc.updated + 1
           results := acc.results ++ [(jobId, combined)] })

theorem setCombined_id (v : ℚ) (r : JobRecord) : (setCombined v r).id = r.id := rfl

/-- The value `combine_scores` assigns, given the two stored scores. -/
def combinedOf (cosine : ℚ) (reasoning : Option ℚ) : ℚ :=
  round4 (match reasoning with
    | some r => COSINE_WEIGHT * cosine + REASONING_WEIGHT * r
    | none => cosine)

theorem combineStep_found (db : DB) (acc : CombineResult) (j : String)
    (job : JobRecord) (c : ℚ) (hget : dbGet db j = some job)
    (hc : job.cosine_match_score = some c) :
    combineStep db acc j =
      (dbUpdate db j (setCombined (combinedOf c job.reasoning_match_score)),
       { acc with
           updated := acc.updated + 1
           results := acc.results ++ [(j, combinedOf c job.reasoning_match_score)] }) := by
  cases hr : job.reasoning_match_score <;>
    simp [combineStep, hget, hc, hr, combinedOf]

/-- The loop of `combine_scores` over the requested ids. -/
def combineLoop (db : DB) (acc : CombineResult) : List String → DB × CombineResult
  | [] => (db, acc)
  | jobId :: rest =>
    let s := combineStep db acc jobId
    combineLoop s.1 s.2 rest

/-- `combine_scores(job_ids)`: returns the updated store and the
`{updated, skipped, results}` report. -/
def combine_scores (jobIds : List String) (db : DB) : DB × CombineResult :=
  combineLoop db ⟨0, 0, []⟩ jobIds

theorem combineStep_db_fields (db : DB) (acc : CombineResult) (j i : String) :
    (dbGet (combineStep db acc j).1 i).map
        (fun r => (r.cosine_match_score, r.reasoning_match_score)) =
      (dbGet db i).map (fun r => (r.cosine_match_score, r.reasoning_match_score)) := by
  cases hget : dbGet db j with
  | none => simp [combineStep, hget]
  | some job =>
    cases hcos : job.cosine_match_score with
    | none => simp [combineStep, hget, hcos]
    | some c =>
      rw [combineStep_found db acc j job c hget hcos]
      rw [dbGet_dbUpdate db j (setCombined _) (fun r => rfl) i]
      by_cases hij : i = j
      · rw [if_pos hij, hij, hget]
        rfl
      · rw [if_neg hij]

theorem combineLoop_db_fields (js : List String) (db : DB) (acc : CombineResult)
    (i : String) :
    (dbGet (combineLoop db acc js).1 i).map
        (fun r => (r.cosine_match_score, r.reasoning_match_score)) =
      (dbGet db i).map (fun r => (r.cosine_match_score, r.reasoning_match_score)) := by
  induction js generalizing db acc with
  | nil => rfl
  | cons j rest ih =>
    simp only [combineLoop]
    rw [ih, combineStep_db_fields]

theorem combineLoop_not_mem (js : List String) (db : DB) (acc : CombineResult)
    (i : String) (h : i ∉ js) :
    dbGet (combineLoop db acc js).1 i = dbGet db i := by
  induction js generalizing db acc with
  | nil => rfl
  | cons j rest ih =>
    simp only [combineLoop]
    rw [ih _ _ (fun hm => h (List.mem_cons_of_mem _ hm))]
    cases hget : dbGet db j with
    | none => simp [combineStep, hget]
    | some job =>
      cases hcos : job.cosine_match_score with
      | none => simp [combineStep, hget, hcos]
      | some c =>
        rw [combineStep_found db acc j job c hget hcos]
        rw [dbGet_dbUpdate db j (setCombined _) (fun r => rfl) i,
            if_neg (fun hij : i = j => h (hij ▸ List.mem_cons_self _ _))]

theorem combineLoop_sets_score (js : List String) (i : String) (c : ℚ) :
    ∀ (db : DB) (acc : CombineResult) (job : JobRecord), i ∈ js →
      dbGet db i = some job → job.cosine_match_score = some c →
      ∃ job2, dbGet (combineLoop db acc js).1 i = some job2 ∧
        job2.cosine_match_score = some c ∧
        job2.reasoning_match_score = job.reasoning_match_score ∧
        job2.combined_match_score = some (combinedOf c job.reasoning_match_score) := by
  induction js with
  | nil =>
    intro db acc job hm _ _
    exact absurd hm (List.not_mem_nil i)
  | cons j rest ih =>
    intro db acc job hm hget hc
    simp only [combineLoop]
    by_cases hrest : i ∈ rest
    · have hfields := combineStep_db_fields db acc j i
      rw [hget] at hfields
      cases hget2 : dbGet (combineStep db acc j).1 i with
      | none => rw [hget2] at hfields; exact absurd hfields (by simp)
      | some job1 =>
        rw [hget2] at hfields
        simp only [Option.map_some', Option.some.injEq, Prod.mk.injEq] at hfields
        obtain ⟨job2, h1, h2, h3, h4⟩ :=
          ih (combineStep db acc j).1 (combineStep db acc j).2 job1 hrest hget2
            (hfields.1.trans hc)
        exact ⟨job2, h1, h2, h3.trans hfields.2, by rw [h4, hfields.2]⟩
    · have hij : i = j := by
        rcases List.mem_cons.mp hm with h | h
        · exact h
        · exact absurd h hrest
      subst hij
      rw [combineLoop_not_mem rest _ _ i hrest,
          combineStep_found db acc i job c hget hc,
          dbGet_dbUpdate db i (setCombined _) (fun r => rfl) i, if_pos rfl, hget]
      exact ⟨_, rfl, hc, rfl, rfl⟩

/-- C1: for every cosine score (in particular in `[0,1]`) and reasoning
score in `[0,1]`, `combine_scores` writes and reports
`round4 (0.3 * cosine + 0.7 * reasoning)`; when the reasoning score is
absent it writes and reports `round4 cosine`. -/
theorem combiner_correctness (db : DB) (jobId : String) (job : JobRecord)
    (hget : dbGet db jobId = some job) (c : ℚ)
    (hc : job.cosine_match_score = some c) (hc0 : 0 ≤ c) (hc1 : c ≤ 1) :
    (∀ r : ℚ, job.reasoning_match_score = some r → 0 ≤ r → r ≤ 1 →
      ∃ job2, dbGet (combine_scores [jobId] db).1 jobId = some job2 ∧
        job2.combined_match_score = some (round4 (3/10 * c + 7/10 * r)) ∧
        (combine_scores [jobId] db).2.results =
          [(jobId, round4 (3/10 * c + 7/10 * r))]) ∧
    (job.reasoning_match_score = none →
      ∃ job2, dbGet (combine_scores [jobId] db).1 jobId = some job2 ∧
        job2.combined_match_score = some (round4 c) ∧
        (combine_scores [jobId] db).2.results = [(jobId, round4 c)]) := by
  constructor
  · intro r hr _ _
    simp only [combine_scores, combineLoop,
      combineStep_found db ⟨0, 0, []⟩ jobId job c hget hc]
    rw [dbGet_dbUpdate db jobId (setCombined _) (fun x => rfl) jobId,
        if_pos rfl, hget]
    refine ⟨_, rfl, ?_, ?_⟩ <;>
      simp [setCombined, combinedOf, hr, COSINE_WEIGHT, REASONING_WEIGHT]
  · intro hr
    simp only [combine_scores, combineLoop,
      combineStep_found db ⟨0, 0, []⟩ jobId job c hget hc]
    rw [dbGet_dbUpdate db jobId (setCombined _) (fun x => rfl) jobId,
        if_pos rfl, hget]
    refine ⟨_, rfl, ?_, ?_⟩ <;> simp [setCombined, combinedOf, hr]

theorem combineLoop_results (js : List String) :
    ∀ (db : DB) (acc : CombineResult),
      (∀ j ∈ js, ∃ job, dbGet db j = some job ∧ job.cosine_match_score.isSome) →
      ((combineLoop db acc js).2.results).map Prod.fst =
        acc.results.map Prod.fst ++ js := by
  induction js with
  | nil =>
    intro db acc _
    simp [combineLoop]
  | cons j rest ih =>
    intro db acc h
    obtain ⟨job, hget, hcos⟩ := h j (List.mem_cons_self _ _)
    obtain ⟨c, hc⟩ := Option.isSome_iff_exists.mp hcos
    have hstep : ∀ j2 ∈ rest, ∃ job2,
        dbGet (combineStep db acc j).1 j2 = some job2 ∧
          job2.cosine_match_score.isSome := by
      intro j2 hj2
      obtain ⟨job2, hget2, hcos2⟩ := h j2 (List.mem_cons_of_mem _ hj2)
      have hfields := combineStep_db_fields db acc j j2
      rw [hget2] at hfields
      cases hg : dbGet (combineStep db acc j).1 j2 with
      | none => rw [hg] at hfields; exact absurd hfields (by simp)
      | some jb =>
        rw [hg] at hfields
        simp only [Option.map_some', Option.some.injEq, Prod.mk.injEq] at hfields
        exact ⟨jb, rfl, by rw [hfields.1]; exact hcos2⟩
    simp only [combineLoop]
    rw [ih _ _ hstep, combineStep_found db acc j job c hget hc]
    simp

/-- A blank job record used to build concrete instances in witnesses. -/
def blankJob : JobRecord where
  id := "j0"
  job_url := "http://example.com/j0"
  job_title := "t"
  company_name := "co"
  job_posting_html := none
  job_description := some "desc"
  date_found := 0
  status := "discovered"
  cosine_match_score := none
  reasoning_match_score := none
  combined_match_score := none
  reasoning_explanation := none
  cover_letter_draft := none
  cv_variant_generated := none
  source := "manual"

/-- A concrete job with cosine `0.8` and reasoning `0.5`. -/
def witJobA : JobRecord :=
  { blankJob with
      id := "a", cosine_match_score := some (8/10),
      reasoning_match_score := some (5/10) }

/-- A concrete job with cosine `0.4` and no reasoning score. -/
def witJobB : JobRecord :=
  { blankJob with id := "b", cosine_match_score := some (4/10) }

/-- Witness for C1 at cosine `0.8`, reasoning `0.5` and at cosine `0.4`
with reasoning absent. -/
theorem combiner_correctness_witness :
    (∃ job2, dbGet (combine_scores ["a"] [witJobA]).1 "a" = some job2 ∧
      job2.combined_match_score = some (round4 (3/10 * (8/10) + 7/10 * (5/10))) ∧
      (combine_scores ["a"] [witJobA]).2.results =
        [("a", round4 (3/10 * (8/10) + 7/10 * (5/10)))]) ∧
    (∃ job2, dbGet (combine_scores ["b"] [witJobB]).1 "b" = some job2 ∧
      job2.combined_match_score = some (round4 (4/10)) ∧
      (combine_scores ["b"] [witJobB]).2.results = [("b", round4 (4/10))]) := by
  constructor
  · exact (combiner_correctness [witJobA] "a" witJobA rfl (8/10) rfl
      (by norm_num) (by norm_num)).1 (5/10) rfl (by norm_num) (by norm_num)
  · exact (combiner_correctness [witJobB] "b" witJobB rfl (4/10) rfl
      (by norm_num) (by norm_num)).2 rfl

/-! ### Wake-on-LAN availability manager (`src/matchers/reasoning/wol.py`) -/

/-- A hexadecimal digit of a MAC address string, as accepted by
`bytes.fromhex`. -/
def hexDigitVal (c : Char) : Option ℕ :=
  if '0' ≤ c ∧ c ≤ '9' then some (c.toNat - '0'.toNat)
  else if 'a' ≤ c ∧ c ≤ 'f' then some (c.toNat - 'a'.toNat + 10)
  else if 'A' ≤ c ∧ c ≤ 'F' then some (c.toNat - 'A'.toNat + 10)
  else none

/-- `bytes.fromhex` on an even-length digit string: consecutive pairs of
hex digits become bytes. -/
def parseHexBytes : List Char → Option (List ℕ)
  | [] => some []
  | [_] => none
  | c1 :: c2 :: rest =>
    match hexDigitVal c1, hexDigitVal c2, parseHexBytes rest with
    | some h, some l, some bs => some ((16 * h + l) :: bs)
    | _, _, _ => none

/-- A UDP datagram as handed to `sock.sendto`: payload plus destination
port (the broadcast address is fixed). -/
structure Datagram where
  payload : List ℕ
  port : ℕ
  deriving Repr, DecidableEq

/-- `send_magic_packet(mac_address)`: strip `:` and `-` separators,
require exactly 12 hex characters, and broadcast
`b'\xff' * 6 + raw * 16` to port 9.  `none` models the `ValueError`
raised for a malformed MAC. -/
def send_magic_packet (mac_address : String) : Option Datagram :=
  let mac := mac_address.data.filter (fun c => ¬ (c = ':' ∨ c = '-'))
  if mac.length ≠ 12 then none
  else
    match parseHexBytes mac with
    | none => none
    | some raw => some ⟨List.replicate 6 255 ++ (List.replicate 16 raw).flatten, 9⟩

/-- Lower-case hex digit for a value below 16. -/
def hexChar (d : ℕ) : Char :=
  if d < 10 then Char.ofNat (48 + d) else Char.ofNat (87 + d)

/-- Standard text form of a byte sequence: two lower-case hex digits per
byte, no separators. -/
def bytesToHex : List ℕ → List Char
  | [] => []
  | b :: rest => hexChar (b / 16) :: hexChar (b % 16) :: bytesToHex rest

theorem hexDigitVal_hexChar (d : ℕ) (h : d < 16) :
    hexDigitVal (hexChar d) = some d := by
  interval_cases d <;> decide

theorem hexChar_not_sep (d : ℕ) (h : d < 16) :
    ¬ (hexChar d = ':' ∨ hexChar d = '-') := by
  interval_cases d <;> decide

theorem parseHexBytes_bytesToHex (bs : List ℕ) (h : ∀ b ∈ bs, b < 256) :
    parseHexBytes (bytesToHex bs) = some bs := by
  induction bs with
  | nil => rfl
  | cons b rest ih =>
    have hb : b < 256 := h b (List.mem_cons_self _ _)
    have hhi : b / 16 < 16 := Nat.div_lt_of_lt_mul hb
    have hlo : b % 16 < 16 := Nat.mod_lt _ (by norm_num)
    simp only [bytesToHex, parseHexBytes, hexDigitVal_hexChar _ hhi,
      hexDigitVal_hexChar _ hlo, ih (fun x hx => h x (List.mem_cons_of_mem _ hx))]
    congr 1
    rw [List.cons.injEq]
    exact ⟨by omega, rfl⟩

theorem bytesToHex_no_sep (bs : List ℕ) (h : ∀ b ∈ bs, b < 256) :
    ∀ c ∈ bytesToHex bs, ¬ (c = ':' ∨ c = '-') := by
  induction bs with
  | nil => intro c hc; exact absurd hc (List.not_mem_nil c)
  | cons b rest ih =>
    intro c hc
    have hb : b < 256 := h b (List.mem_cons_self _ _)
    rcases List.mem_cons.mp hc with hc | hc
    · exact hc ▸ hexChar_not_sep (b / 16) (Nat.div_lt_of_lt_mul hb)
    · rcases List.mem_cons.mp hc with hc | hc
      · exact hc ▸ hexChar_not_sep (b % 16) (Nat.mod_lt _ (by norm_num))
      · exact ih (fun x hx => h x (List.mem_cons_of_mem _ hx)) c hc

theorem bytesToHex_length (bs : List ℕ) :
    (bytesToHex bs).length = 2 * bs.length := by
  induction bs with
  | nil => rfl
  | cons b rest ih => simp [bytesToHex, ih]; omega

/-- C5: for every 6-byte hardware identifier, the broadcast datagram is
exactly 102 bytes — 6 bytes of `0xFF` followed by 16 repetitions of the
identifier — and goes to port 9. -/
theorem magic_packet_format (mac : List ℕ) (hlen : mac.length = 6)
    (hbytes : ∀ b ∈ mac, b < 256) :
    ∃ p : Datagram, send_magic_packet ⟨bytesToHex mac⟩ = some p ∧
      p.port = 9 ∧
      p.payload.length = 102 ∧
      p.payload = List.replicate 6 255 ++ (List.replicate 16 mac).flatten := by
  have hchars : (String.mk (bytesToHex mac)).data = bytesToHex mac := rfl
  have hfilter : (bytesToHex mac).filter (fun c => ¬ (c = ':' ∨ c = '-')) =
      bytesToHex mac :=
    List.filter_eq_self.mpr (fun c hc => by
      simp only [decide_eq_true_eq]
      exact bytesToHex_no_sep mac hbytes c hc)
  refine ⟨⟨List.replicate 6 255 ++ (List.replicate 16 mac).flatten, 9⟩, ?_, rfl, ?_, rfl⟩
  · simp only [send_magic_packet, hchars, hfilter, bytesToHex_length, hlen]
    rw [if_neg (by omega), parseHexBytes_bytesToHex mac hbytes]
  · simp [List.length_flatten, List.map_replicate, hlen]

/-- Witness for C5 at the identifier `01:23:45:67:89:ab`. -/
theorem magic_packet_format_witness :
    ∃ p : Datagram,
      send_magic_packet ⟨bytesToHex [1, 35, 69, 103, 137, 171]⟩ = some p ∧
      p.port = 9 ∧ p.payload.length = 102 ∧
      p.payload = List.replicate 6 255 ++
        (List.replicate 16 [1, 35, 69, 103, 137, 171]).flatten :=
  magic_packet_format [1, 35, 69, 103, 137, 171] rfl (by decide)

/-- The observable effects of one `wake_and_wait` call, in order. -/
inductive WolEvent where
  | wakeSent
  | wakeSendFailed
  | slept (seconds : ℕ)
  | probed (ok : Bool)
  deriving Repr, DecidableEq

/-- The network environment a `wake_and_wait` call runs against:
whether the very first reachability probe succeeds, whether the re-probe
after the boot wait of a given attempt succeeds, and whether sending the
magic packet on a given attempt raises. -/
structure WolEnv where
  initialReachable : Bool
  reachableAfter : ℕ → Bool
  sendOk : ℕ → Bool

/-- Does an event record a wake-signal send (successful or failed)? -/
def isWakeAttempt : WolEvent → Bool
  | .wakeSent => true
  | .wakeSendFailed => true
  | _ => false

/-- Number of wake-signal sends in a trace. -/
def wakeAttemptCount (evts : List WolEvent) : ℕ :=
  (evts.filter isWakeAttempt).length

/-- The `for attempt in range(1, retries + 1)` loop of `wake_and_wait`:
per attempt, try to send the magic packet (a failure is logged, i.e.
recorded and swallowed), sleep `boot_wait`, re-probe; stop at the first
successful probe.  `attempt` is the current attempt number, the second
argument the number of attempts left. -/
def wolLoop (env : WolEnv) (bootWait : ℕ) : ℕ → ℕ → Bool × List WolEvent
  | _, 0 => (false, [])
  | attempt, n + 1 =>
    let sendEv := if env.sendOk attempt then WolEvent.wakeSent
                  else WolEvent.wakeSendFailed
    if env.reachableAfter attempt then
      (true, [sendEv, .slept bootWait, .probed true])
    else
      let rest := wolLoop env bootWait (attempt + 1) n
      (rest.1, sendEv :: .slept bootWait :: .probed false :: rest.2)

/-- `wake_and_wait(mac, host, port, retries, boot_wait)`: probe first and
return immediately when reachable, else run the wake loop.  Returns the
boolean result and the trace of observable effects. -/
def wake_and_wait (env : WolEnv) (retries bootWait : ℕ) : Bool × List WolEvent :=
  if env.initialReachable then (true, [WolEvent.probed true])
  else
    let t := wolLoop env bootWait 1 retries
    (t.1, WolEvent.probed false :: t.2)

theorem wolLoop_false_iff (env : WolEnv) (bootWait : ℕ) :
    ∀ (n s : ℕ), (wolLoop env bootWait s n).1 = false ↔
      ∀ a, s ≤ a → a < s + n → env.reachableAfter a = false := by
  intro n
  induction n with
  | zero =>
    intro s
    constructor
    · intro _ a h1 h2
      omega
    · intro _
      rfl
  | succ m ih =>
    intro s
    simp only [wolLoop]
    by_cases hr : env.reachableAfter s
    · rw [if_pos hr]
      constructor
      · intro h
        exact absurd h (by simp)
      · intro h
        exact absurd (h s le_rfl (by omega)) (by simp [hr])
    · rw [if_neg hr]
      simp only
      rw [ih (s + 1)]
      constructor
      · intro h a h1 h2
        rcases Nat.eq_or_lt_of_le h1 with he | hl
        · exact he ▸ Bool.eq_false_iff.mpr hr
        · exact h a hl (by omega)
      · intro h a h1 h2
        exact h a (by omega) (by omega)

theorem wolLoop_count_le (env : WolEnv) (bootWait : ℕ) :
    ∀ (n s : ℕ), wakeAttemptCount (wolLoop env bootWait s n).2 ≤ n := by
  intro n
  induction n with
  | zero =>
    intro s
    simp [wolLoop, wakeAttemptCount]
  | succ m ih =>
    intro s
    simp only [wolLoop]
    by_cases hr : env.reachableAfter s
    · rw [if_pos hr]
      cases hs : env.sendOk s <;> simp [wakeAttemptCount, isWakeAttempt, hs]
    · rw [if_neg hr]
      have := ih (s + 1)
      cases hs : env.sendOk s <;>
        simp [wakeAttemptCount, isWakeAttempt, hs, List.filter] at this ⊢ <;>
        omega

theorem wolLoop_first_success (env : WolEnv) (bootWait : ℕ) :
    ∀ (n s a : ℕ), s ≤ a → a < s + n → env.reachableAfter a = true →
      (∀ b, s ≤ b → b < a → env.reachableAfter b = false) →
      (wolLoop env bootWait s n).1 = true ∧
        wakeAttemptCount (wolLoop env bootWait s n).2 = a - s + 1 := by
  intro n
  induction n with
  | zero =>
    intro s a h1 h2
    omega
  | succ m ih =>
    intro s a h1 h2 hr hbefore
    rcases Nat.eq_or_lt_of_le h1 with he | hl
    · subst he
      simp only [wolLoop]
      rw [if_pos hr]
      cases hs : env.sendOk s <;>
        simp [wakeAttemptCount, isWakeAttempt, hs]
    · have hs0 : env.reachableAfter s = false := hbefore s le_rfl hl
      simp only [wolLoop]
      rw [if_neg (by simp [hs0])]
      have := ih (s + 1) a hl (by omega) hr
        (fun b hb1 hb2 => hbefore b (by omega) hb2)
      refine ⟨this.1, ?_⟩
      cases hs : env.sendOk s <;>
        simp [wakeAttemptCount, isWakeAttempt, hs, List.filter] at this ⊢ <;>
        omega

theorem wolLoop_sendOk_irrelevant (env env2 : WolEnv)
    (hra : env2.reachableAfter = env.reachableAfter) (bootWait : ℕ) :
    ∀ (n s : ℕ),
      (wolLoop env2 bootWait s n).1 = (wolLoop env bootWait s n).1 := by
  intro n
  induction n with
  | zero =>
    intro s
    rfl
  | succ m ih =>
    intro s
    simp only [wolLoop, hra]
    by_cases hr : env.reachableAfter s <;> simp [hr, ih (s + 1)]

/-- C4: `wake_and_wait` returns `true` at once, sending no wake signal,
when the initial probe succeeds; otherwise it sends at most `retries`
wake signals, returns `false` exactly when every re-probe fails, stops
at the first successful re-probe, and its result does not depend on
whether sending the wake signal raises (such failures are swallowed). -/
theorem wake_and_wait_spec (env : WolEnv) (retries bootWait : ℕ) :
    (env.initialReachable = true →
      wake_and_wait env retries bootWait = (true, [WolEvent.probed true])) ∧
    (env.initialReachable = false →
      wakeAttemptCount (wake_and_wait env retries bootWait).2 ≤ retries ∧
      ((wake_and_wait env retries bootWait).1 = false ↔
        ∀ a, 1 ≤ a → a ≤ retries → env.reachableAfter a = false) ∧
      (∀ a, 1 ≤ a → a ≤ retries → env.reachableAfter a = true →
        (∀ b, 1 ≤ b → b < a → env.reachableAfter b = false) →
        (wake_and_wait env retries bootWait).1 = true ∧
          wakeAttemptCount (wake_and_wait env retries bootWait).2 = a)) ∧
    (∀ g, (wake_and_wait { env with sendOk := g } retries bootWait).1 =
        (wake_and_wait env retries bootWait).1) := by
  refine ⟨?_, ?_, ?_⟩
  · intro h
    simp [wake_and_wait, h]
  · intro h
    simp only [wake_and_wait, h, Bool.false_eq_true, if_false]
    refine ⟨?_, ?_, ?_⟩
    · have := wolLoop_count_le env bootWait retries 1
      simp [wakeAttemptCount, List.filter, isWakeAttempt] at this ⊢
      exact this
    · rw [wolLoop_false_iff env bootWait retries 1]
      constructor
      · intro hall a h1 h2
        exact hall a h1 (by omega)
      · intro hall a h1 h2
        exact hall a h1 (by omega)
    · intro a h1 h2 hr hbefore
      have := wolLoop_first_success env bootWait retries 1 a h1 (by omega) hr hbefore
      refine ⟨this.1, ?_⟩
      have h2' := this.2
      simp [wakeAttemptCount, List.filter, isWakeAttempt] at h2' ⊢
      omega
  · intro g
    cases he : env.initialReachable with
    | true =>
      have he2 : ({ env with sendOk := g } : WolEnv).initialReachable = true := he
      simp [wake_and_wait, he, he2]
    | false =>
      have he2 : ({ env with sendOk := g } : WolEnv).initialReachable = false := he
      simp only [wake_and_wait, he, he2, Bool.false_eq_true, if_false]
      exact wolLoop_sendOk_irrelevant env ⟨false, env.reachableAfter, g⟩ rfl
        bootWait retries 1

/-- Witness for C4: a node that is not initially reachable, comes up
after the second of three attempts, with the packet send failing on the
first attempt. -/
theorem wake_and_wait_spec_witness :
    (wake_and_wait ⟨false, fun a => a == 2, fun a => a != 1⟩ 3 30).1 = true ∧
    wakeAttemptCount (wake_and_wait ⟨false, fun a => a == 2, fun a => a != 1⟩ 3 30).2 = 2 := by
  have h := (wake_and_wait_spec ⟨false, fun a => a == 2, fun a => a != 1⟩ 3 30).2.1 rfl
  exact h.2.2 2 (by norm_num) (by norm_num) (by decide)
    (fun b hb1 hb2 => by interval_cases b <;> decide)

/-! ### Reasoning matcher (`src/matchers/reasoning/matcher.py`, `main.py`)
and the DAG tasks around it (`src/airflow_dags/job_snatcher_pipeline.py`) -/

/-- `MIN_COSINE_SCORE` from `matcher.py`: only run reasoning on jobs
that passed the cosine threshold. -/
def MIN_COSINE_SCORE : ℚ := 6/10

/-- One entry of the reasoning matcher's result list. -/
structure RResult where
  job_id : String
  reasoning_match_score : ℚ
  reasoning_explanation : String
  deriving Repr, DecidableEq

/-- Environment of a reasoning-matcher call: the configured MAC address
(`config.GAMING_PC_MAC_ADDRESS`, `none` when unset), the network the
availability manager probes, and the LLM oracle.  The oracle maps a job
description to the parsed `(confidence, explanation)` pair (prompt
assembly from the static professional assets and response parsing are
absorbed into it); `.error` models an exception from the Ollama call or
from response parsing. -/
structure ReasoningEnv where
  gamingPcMacAddress : Option String
  wol : WolEnv
  llm : String → Except Unit (ℚ × String)

/-- The write performed for a successfully reasoned job. -/
def setReasoning (score : ℚ) (expl : String) (r : JobRecord) : JobRecord :=
  { r with
      reasoning_match_score := some score
      reasoning_explanation := some expl }

/-- Per-item outcome inside the reasoning loop. -/
inductive ReasoningOutcome where
  | processed (r : RResult)
  | skippedGate
  | failedItem
  deriving Repr, DecidableEq

/-- One iteration of the loop in the reasoning `match_jobs`: a missing
job counts as failed; a job whose cosine score (`or 0`) is below
`MIN_COSINE_SCORE` is skipped without being counted failed; a missing
description counts as failed; an LLM failure counts as failed; otherwise
the raw score and the explanation are written back and the rounded score
reported. -/
def reasoningStep (env : ReasoningEnv) (db : DB) (jobId : String) :
    DB × ReasoningOutcome :=
  match dbGet db jobId with
  | none => (db, .failedItem)
  | some job =>
    if job.cosine_match_score.getD 0 < MIN_COSINE_SCORE then (db, .skippedGate)
    else if optStrFalsy job.job_description then (db, .failedItem)
    else
      match env.llm (job.job_description.getD "") with
      | .error _ => (db, .failedItem)
      | .ok (score, expl) =>
        (dbUpdate db jobId (setReasoning score expl),
         .processed ⟨jobId, round4 score, expl⟩)

/-- The reasoning loop over the batch: per-item failures are counted,
results are collected in order, no exception escapes an item. -/
def reasoningLoop (env : ReasoningEnv) : DB → List String → DB × List RResult × ℕ
  | db, [] => (db, [], 0)
  | db, jobId :: rest =>
    let s := reasoningStep env db jobId
    let t := reasoningLoop env s.1 rest
    match s.2 with
    | .processed r => (t.1, r :: t.2.1, t.2.2)
    | .skippedGate => (t.1, t.2.1, t.2.2)
    | .failedItem => (t.1, t.2.1, t.2.2 + 1)

/-- The reasoning `match_jobs(job_ids)`: when a MAC address is
configured, wake the remote node first (with the call-site defaults
`retries=3`, `boot_wait=30`) and raise `RuntimeError` (the `.error`
case) if it stays unreachable; otherwise process the batch. -/
def reasoning_match_jobs (env : ReasoningEnv) (jobIds : List String) (db : DB) :
    Except Unit (List RResult × ℕ) × DB :=
  match env.gamingPcMacAddress with
  | some _ =>
    if (wake_and_wait env.wol 3 30).1 then
      let t := reasoningLoop env db jobIds
      (.ok (t.2.1, t.2.2), t.1)
    else (.error (), db)
  | none =>
    let t := reasoningLoop env db jobIds
    (.ok (t.2.1, t.2.2), t.1)

/-- HTTP outcome of the `/reason` endpoint (`reasoning/main.py`):
`200` with the results, `400` for an empty batch, `503` when the remote
node is unreachable. -/
inductive ReasonHttp where
  | ok (results : List RResult) (processed failed : ℕ)
  | badRequest
  | unavailable
  deriving Repr, DecidableEq

/-- The `/reason` endpoint: rejects an empty batch with 400, maps the
matcher's `RuntimeError` to 503, otherwise returns results with
`processed = len(results)`. -/
def reason_endpoint (env : ReasoningEnv) (jobIds : List String) (db : DB) :
    ReasonHttp × DB :=
  if jobIds.isEmpty then (.badRequest, db)
  else
    match reasoning_match_jobs env jobIds db with
    | (.ok (results, failed), db2) => (.ok results results.length failed, db2)
    | (.error _, db2) => (.unavailable, db2)

/-- The DAG's `reasoning_match_task`: an empty batch short-circuits; a
503 from the service is logged and swallowed; any other HTTP error is
re-raised; the same `job_ids` are always pushed downstream. -/
def reasoning_match_task (env : ReasoningEnv) (jobIds : List String) (db : DB) :
    Except Unit (List String) × DB :=
  if jobIds.isEmpty then (.ok [], db)
  else
    match reason_endpoint env jobIds db with
    | (.ok _ _ _, db2) => (.ok jobIds, db2)
    | (.unavailable, db2) => (.ok jobIds, db2)
    | (.badRequest, db2) => (.error (), db2)

/-- The DAG's `combine_scores_task`: call the in-process combiner and
pass downstream exactly the ids that received a combined score. -/
def combine_scores_task (jobIds : List String) (db : DB) : List String × DB :=
  if jobIds.isEmpty then ([], db)
  else
    let t := combine_scores jobIds db
    (t.2.results.map Prod.fst, t.1)

/-- C6: the reasoning-stage gate is inclusive — a job at cosine exactly
`0.6` with a description is processed by the reasoning matcher, while a
job with cosine strictly below `0.6` is passed over unprocessed and not
counted as failed, its stored scores untouched. -/
theorem reasoning_gate_inclusive (env : ReasoningEnv) (db : DB) (jobId : String)
    (job : JobRecord) (hget : dbGet db jobId = some job) :
    (∀ score expl, job.cosine_match_score = some (6/10) →
      optStrFalsy job.job_description = false →
      env.llm (job.job_description.getD "") = .ok (score, expl) →
      reasoningLoop env db [jobId] =
        (dbUpdate db jobId (setReasoning score expl),
         [⟨jobId, round4 score, expl⟩], 0)) ∧
    (∀ c, job.cosine_match_score = some c → c < 6/10 →
      reasoningLoop env db [jobId] = (db, [], 0)) := by
  constructor
  · intro score expl hc hdesc hllm
    have hgate : ¬ (job.cosine_match_score.getD 0 < MIN_COSINE_SCORE) := by
      rw [hc]
      simp [MIN_COSINE_SCORE]
    simp [reasoningLoop, reasoningStep, hget, hgate, hdesc, hllm]
  · intro c hc hlt
    have hgate : job.cosine_match_score.getD 0 < MIN_COSINE_SCORE := by
      rw [hc]
      simpa [MIN_COSINE_SCORE] using hlt
    simp [reasoningLoop, reasoningStep, hget, hgate]

/-- A concrete job at the gate boundary, cosine exactly `0.6`. -/
def gateJobHi : JobRecord :=
  { blankJob with id := "hi", cosine_match_score := some (6/10) }

/-- A concrete job just below the gate, cosine `0.5999`. -/
def gateJobLo : JobRecord :=
  { blankJob with id := "lo", cosine_match_score := some (5999/10000) }

/-- A concrete reasoning environment whose LLM returns `0.9`. -/
def gateEnv : ReasoningEnv :=
  ⟨some "aa:bb:cc:dd:ee:ff", ⟨true, fun _ => true, fun _ => true⟩,
   fun _ => .ok (9/10, "fits")⟩

/-- Witness for C6: at cosine `0.6` the job is processed (score written,
nothing failed); at cosine `0.5999` it is skipped with nothing failed
and the store untouched. -/
theorem reasoning_gate_inclusive_witness :
    reasoningLoop gateEnv [gateJobHi] ["hi"] =
      (dbUpdate [gateJobHi] "hi" (setReasoning (9/10) "fits"),
       [⟨"hi", round4 (9/10), "fits"⟩], 0) ∧
    reasoningLoop gateEnv [gateJobLo] ["lo"] = ([gateJobLo], [], 0) := by
  constructor
  · exact (reasoning_gate_inclusive gateEnv [gateJobHi] "hi" gateJobHi rfl).1
      (9/10) "fits" rfl rfl rfl
  · exact (reasoning_gate_inclusive gateEnv [gateJobLo] "lo" gateJobLo rfl).2
      (5999/10000) rfl (by norm_num)

/-- C2: when the availability probe never succeeds within the retries,
the reasoning stage raises, the service returns 503, the orchestrator
absorbs it and passes the whole batch on unchanged, and every job of the
batch reaches the combiner with `reasoning_score` undefined and ends at
`combined_score = round4 cosine_score`. -/
theorem remote_unavailable_fallback (env : ReasoningEnv) (jobIds : List String)
    (db : DB) (mac : String) (hmac : env.gamingPcMacAddress = some mac)
    (hInit : env.wol.initialReachable = false)
    (hProbe : ∀ a, 1 ≤ a → a ≤ 3 → env.wol.reachableAfter a = false)
    (hJobs : ∀ i ∈ jobIds, ∃ job c, dbGet db i = some job ∧
      job.cosine_match_score = some c ∧ job.reasoning_match_score = none) :
    reasoning_match_task env jobIds db = (.ok jobIds, db) ∧
    (combine_scores_task jobIds db).1 = jobIds ∧
    (∀ i ∈ jobIds, ∀ job c, dbGet db i = some job →
      job.cosine_match_score = some c →
      ∃ job2, dbGet (combine_scores_task jobIds db).2 i = some job2 ∧
        job2.reasoning_match_score = none ∧
        job2.combined_match_score = some (round4 c)) := by
  have hwake : (wake_and_wait env.wol 3 30).1 = false := by
    simp only [wake_and_wait, hInit, Bool.false_eq_true, if_false]
    exact (wolLoop_false_iff env.wol 30 3 1).mpr
      (fun a h1 h2 => hProbe a h1 (by omega))
  have hmj : reasoning_match_jobs env jobIds db = (.error (), db) := by
    simp [reasoning_match_jobs, hmac, hwake]
  refine ⟨?_, ?_, ?_⟩
  · cases hnil : jobIds with
    | nil => simp [reasoning_match_task]
    | cons x xs =>
      rw [← hnil]
      have hne : jobIds.isEmpty = false := by simp [hnil]
      simp [reasoning_match_task, reason_endpoint, hne, hmj]
  · cases hnil : jobIds with
    | nil => simp [combine_scores_task]
    | cons x xs =>
      rw [← hnil]
      have hne : jobIds.isEmpty = false := by simp [hnil]
      simp only [combine_scores_task, hne, Bool.false_eq_true, if_false]
      have := combineLoop_results jobIds db ⟨0, 0, []⟩ (fun j hj => by
        obtain ⟨job, c, hget, hc, _⟩ := hJobs j hj
        exact ⟨job, hget, by simp [hc]⟩)
      simpa [combine_scores] using this
  · intro i hi job c hget hc
    have hne : jobIds.isEmpty = false := by
      cases jobIds with
      | nil => exact absurd hi (List.not_mem_nil i)
      | cons x xs => simp
    obtain ⟨job', c', hget', hc', hr'⟩ := hJobs i hi
    rw [hget] at hget'
    have hr : job.reasoning_match_score = none := by
      rw [Option.some.inj hget']
      exact hr'
    obtain ⟨job2, h1, h2, h3, h4⟩ :=
      combineLoop_sets_score jobIds i c db ⟨0, 0, []⟩ job hi hget hc
    refine ⟨job2, ?_, h3.trans hr, ?_⟩
    · simp only [combine_scores_task, hne, Bool.false_eq_true, if_false]
      exact h1
    · rw [h4, hr]
      rfl

/-- A concrete job `a` with cosine `0.8` and no reasoning score. -/
def witJobA2 : JobRecord :=
  { blankJob with id := "a", cosine_match_score := some (8/10) }

/-- A concrete job `b` with cosine `0.4` and no reasoning score. -/
def witJobB2 : JobRecord :=
  { blankJob with id := "b", cosine_match_score := some (4/10) }

/-- Witness for C2: a two-job batch, cosine `0.8` and `0.4`, no
reasoning scores, remote node never reachable: both ids survive to the
combiner and land at their rounded cosine scores. -/
theorem remote_unavailable_fallback_witness :
    reasoning_match_task
        ⟨some "aa:bb:cc:dd:ee:ff", ⟨false, fun _ => false, fun _ => true⟩,
         fun _ => .ok (9/10, "fits")⟩ ["a", "b"] [witJobB2, witJobA2] =
      (.ok ["a", "b"], [witJobB2, witJobA2]) ∧
    (combine_scores_task ["a", "b"] [witJobB2, witJobA2]).1 = ["a", "b"] ∧
    (∃ job2, dbGet (combine_scores_task ["a", "b"] [witJobB2, witJobA2]).2 "a"
        = some job2 ∧
      job2.reasoning_match_score = none ∧
      job2.combined_match_score = some (round4 (8/10))) := by
  have h := remote_unavailable_fallback
    ⟨some "aa:bb:cc:dd:ee:ff", ⟨false, fun _ => false, fun _ => true⟩,
     fun _ => .ok (9/10, "fits")⟩ ["a", "b"] [witJobB2, witJobA2]
    "aa:bb:cc:dd:ee:ff" rfl rfl (fun a h1 h2 => rfl)
    (by
      intro i hi
      rcases List.mem_cons.mp hi with hi | hi
      · exact ⟨witJobA2, 8/10, by simp [hi, dbGet, witJobA2, witJobB2, blankJob], rfl, rfl⟩
      · rcases List.mem_cons.mp hi with hi | hi
        · exact ⟨witJobB2, 4/10, by simp [hi, dbGet, witJobA2, witJobB2, blankJob], rfl, rfl⟩
        · exact absurd hi (List.not_mem_nil i))
  refine ⟨h.1, h.2.1, ?_⟩
  exact h.2.2 "a" (List.mem_cons_self _ _) witJobA2 (8/10)
    (by simp [dbGet, witJobA2, witJobB2, blankJob]) rfl

/-! ### Cosine matcher (`src/matchers/cosine/matcher.py`) -/

/-- Environment of a cosine-matcher call: whether fetching and embedding
the active professional narrative succeeds (its absence raises a
batch-level `RuntimeError`), and the scoring oracle taking a job
description to the cosine similarity against the narrative (`.error`
models an exception from the embedding model). -/
structure CosineEnv where
  narrativeInit : Except Unit Unit
  score : String → Except Unit ℚ

/-- The write performed for a successfully scored job. -/
def setCosine (v : ℚ) (r : JobRecord) : JobRecord :=
  { r with cosine_match_score := some v }

/-- Per-item outcome inside the cosine loop. -/
inductive CosineOutcome where
  | processed (jobId : String) (score : ℚ)
  | failedItem
  deriving Repr, DecidableEq

/-- One iteration of the loop in the cosine `match_jobs`: a missing job
or missing description counts as failed; a scoring exception is caught
and counts as failed; otherwise the raw score is written back and the
rounded score reported. -/
def cosineStep (env : CosineEnv) (db : DB) (jobId : String) :
    DB × CosineOutcome :=
  match dbGet db jobId with
  | none => (db, .failedItem)
  | some job =>
    if optStrFalsy job.job_description then (db, .failedItem)
    else
      match env.score (job.job_description.getD "") with
      | .error _ => (db, .failedItem)
      | .ok s => (dbUpdate db jobId (setCosine s), .processed jobId (round4 s))

/-- The cosine loop over the batch. -/
def cosineLoop (env : CosineEnv) : DB → List String → DB × List (String × ℚ) × ℕ
  | db, [] => (db, [], 0)
  | db, jobId :: rest =>
    let s := cosineStep env db jobId
    let t := cosineLoop env s.1 rest
    match s.2 with
    | .processed j v => (t.1, (j, v) :: t.2.1, t.2.2)
    | .failedItem => (t.1, t.2.1, t.2.2 + 1)

/-- The cosine `match_jobs(job_ids)`: a missing narrative raises
(batch-level error), otherwise every item is processed under the
per-item exception barrier. -/
def cosine_match_jobs (env : CosineEnv) (jobIds : List String) (db : DB) :
    Except Unit (List (String × ℚ) × ℕ) × DB :=
  match env.narrativeInit with
  | .error _ => (.error (), db)
  | .ok _ =>
    let t := cosineLoop env db jobIds
    (.ok (t.2.1, t.2.2), t.1)

/-- Isolation in the cosine matcher: in a batch of three ids where
scoring the second raises, the first and third are fully processed, the
second is counted failed and left untouched, and (with the narrative
present) the stage always returns normally. -/
theorem cosine_isolation (env : CosineEnv) (db : DB) (a b c : String)
    (hab : a ≠ b) (hac : a ≠ c) (hbc : b ≠ c)
    (hnar : env.narrativeInit = .ok ())
    (ja jb jc : JobRecord)
    (hja : dbGet db a = some ja) (hjb : dbGet db b = some jb)
    (hjc : dbGet db c = some jc)
    (hda : optStrFalsy ja.job_description = false)
    (hdb : optStrFalsy jb.job_description = false)
    (hdc : optStrFalsy jc.job_description = false)
    (sa sc : ℚ)
    (hsa : env.score (ja.job_description.getD "") = .ok sa)
    (hsb : env.score (jb.job_description.getD "") = .error ())
    (hsc : env.score (jc.job_description.getD "") = .ok sc) :
    (∃ db2, cosine_match_jobs env [a, b, c] db =
        (.ok ([(a, round4 sa), (c, round4 sc)], 1), db2) ∧
      dbGet db2 a = some (setCosine sa ja) ∧
      dbGet db2 c = some (setCosine sc jc) ∧
      dbGet db2 b = some jb) ∧
    (∀ ids (db0 : DB), ∃ out db3,
      cosine_match_jobs env ids db0 = (.ok out, db3)) := by
  constructor
  · have h1 : cosineStep env db a =
        (dbUpdate db a (setCosine sa), .processed a (round4 sa)) := by
      simp [cosineStep, hja, hda, hsa]
    have hgb : dbGet (dbUpdate db a (setCosine sa)) b = some jb := by
      rw [dbGet_dbUpdate db a (setCosine sa) (fun r => rfl) b,
          if_neg (fun h => hab h.symm), hjb]
    have hgc : dbGet (dbUpdate db a (setCosine sa)) c = some jc := by
      rw [dbGet_dbUpdate db a (setCosine sa) (fun r => rfl) c,
          if_neg (fun h => hac h.symm), hjc]
    have h2 : cosineStep env (dbUpdate db a (setCosine sa)) b =
        (dbUpdate db a (setCosine sa), .failedItem) := by
      simp [cosineStep, hgb, hdb, hsb]
    have h3 : cosineStep env (dbUpdate db a (setCosine sa)) c =
        (dbUpdate (dbUpdate db a (setCosine sa)) c (setCosine sc),
         .processed c (round4 sc)) := by
      simp [cosineStep, hgc, hdc, hsc]
    refine ⟨dbUpdate (dbUpdate db a (setCosine sa)) c (setCosine sc), ?_, ?_, ?_, ?_⟩
    · simp [cosine_match_jobs, hnar, cosineLoop, h1, h2, h3]
    · rw [dbGet_dbUpdate _ c (setCosine sc) (fun r => rfl) a, if_neg hac,
          dbGet_dbUpdate db a (setCosine sa) (fun r => rfl) a, if_pos rfl, hja]
      rfl
    · rw [dbGet_dbUpdate _ c (setCosine sc) (fun r => rfl) c, if_pos rfl, hgc]
      rfl
    · rw [dbGet_dbUpdate _ c (setCosine sc) (fun r => rfl) b, if_neg hbc, hgb]
  · intro ids db0
    refine ⟨((cosineLoop env db0 ids).2.1, (cosineLoop env db0 ids).2.2),
      (cosineLoop env db0 ids).1, ?_⟩
    simp [cosine_match_jobs, hnar]

/-- Isolation in the reasoning matcher: in a batch of three ids that all
pass the cosine gate, where the LLM call for the second raises, the
first and third are fully processed, the second is counted failed and
left untouched.  (The WoL gate is bypassed as when no MAC address is
configured.) -/
theorem reasoning_isolation (env : ReasoningEnv) (db : DB) (a b c : String)
    (hab : a ≠ b) (hac : a ≠ c) (hbc : b ≠ c)
    (hmac : env.gamingPcMacAddress = none)
    (ja jb jc : JobRecord)
    (hja : dbGet db a = some ja) (hjb : dbGet db b = some jb)
    (hjc : dbGet db c = some jc)
    (hga : ¬ (ja.cosine_match_score.getD 0 < MIN_COSINE_SCORE))
    (hgb : ¬ (jb.cosine_match_score.getD 0 < MIN_COSINE_SCORE))
    (hgc : ¬ (jc.cosine_match_score.getD 0 < MIN_COSINE_SCORE))
    (hda : optStrFalsy ja.job_description = false)
    (hdb : optStrFalsy jb.job_description = false)
    (hdc : optStrFalsy jc.job_description = false)
    (sa sc : ℚ) (ea ec : String)
    (hsa : env.llm (ja.job_description.getD "") = .ok (sa, ea))
    (hsb : env.llm (jb.job_description.getD "") = .error ())
    (hsc : env.llm (jc.job_description.getD "") = .ok (sc, ec)) :
    ∃ db2, reasoning_match_jobs env [a, b, c] db =
        (.ok ([⟨a, round4 sa, ea⟩, ⟨c, round4 sc, ec⟩], 1), db2) ∧
      dbGet db2 a = some (setReasoning sa ea ja) ∧
      dbGet db2 c = some (setReasoning sc ec jc) ∧
      dbGet db2 b = some jb := by
  have h1 : reasoningStep env db a =
      (dbUpdate db a (setReasoning sa ea), .processed ⟨a, round4 sa, ea⟩) := by
    simp [reasoningStep, hja, hga, hda, hsa]
  have hgb1 : dbGet (dbUpdate db a (setReasoning sa ea)) b = some jb := by
    rw [dbGet_dbUpdate db a (setReasoning sa ea) (fun r => rfl) b,
        if_neg (fun h => hab h.symm), hjb]
  have hgc1 : dbGet (dbUpdate db a (setReasoning sa ea)) c = some jc := by
    rw [dbGet_dbUpdate db a (setReasoning sa ea) (fun r => rfl) c,
        if_neg (fun h => hac h.symm), hjc]
  have h2 : reasoningStep env (dbUpdate db a (setReasoning sa ea)) b =
      (dbUpdate db a (setReasoning sa ea), .failedItem) := by
    simp [reasoningStep, hgb1, hgb, hdb, hsb]
  have h3 : reasoningStep env (dbUpdate db a (setReasoning sa ea)) c =
      (dbUpdate (dbUpdate db a (setReasoning sa ea)) c (setReasoning sc ec),
       .processed ⟨c, round4 sc, ec⟩) := by
    simp [reasoningStep, hgc1, hgc, hdc, hsc]
  refine ⟨dbUpdate (dbUpdate db a (setReasoning sa ea)) c (setReasoning sc ec),
    ?_, ?_, ?_, ?_⟩
  · simp [reasoning_match_jobs, hmac, reasoningLoop, h1, h2, h3]
  · rw [dbGet_dbUpdate _ c (setReasoning sc ec) (fun r => rfl) a, if_neg hac,
        dbGet_dbUpdate db a (setReasoning sa ea) (fun r => rfl) a, if_pos rfl, hja]
    rfl
  · rw [dbGet_dbUpdate _ c (setReasoning sc ec) (fun r => rfl) c, if_pos rfl, hgc1]
    rfl
  · rw [dbGet_dbUpdate _ c (setReasoning sc ec) (fun r => rfl) b, if_neg hbc, hgb1]

/-- Concrete cosine environment for the C8 witness: scoring the
description `"bad"` raises, the others score `0.7`. -/
def isoEnv : CosineEnv :=
  ⟨.ok (), fun d => if d = "bad" then .error () else .ok (7/10)⟩

/-- Job `x` with a well-behaved description. -/
def isoJobX : JobRecord := { blankJob with id := "x", job_description := some "ok1" }

/-- Job `y` whose description makes the per-item oracle raise. -/
def isoJobY : JobRecord := { blankJob with id := "y", job_description := some "bad" }

/-- Job `z` with a well-behaved description. -/
def isoJobZ : JobRecord := { blankJob with id := "z", job_description := some "ok2" }

/-! ### Generation threshold (`generate_task` in the DAG) -/

/-- The default of the Airflow variable `GENERATE_THRESHOLD`. -/
def GENERATE_THRESHOLD_DEFAULT : ℚ := 1/2

/-- The filter of `generate_task`: an id qualifies exactly when its job
exists, has a combined score, and that score is `≥ threshold`. -/
def generate_qualifying (db : DB) (threshold : ℚ) (jobIds : List String) :
    List String :=
  jobIds.filter (fun i =>
    match dbGet db i with
    | some job =>
      match job.combined_match_score with
      | some s => decide (s ≥ threshold)
      | none => false
    | none => false)

/-- C7: the generation threshold is inclusive — an id whose job sits
exactly at the threshold is sent to generation, one strictly below or
with an undefined combined score is excluded (and the default threshold
is `0.5`). -/
theorem generate_threshold_inclusive (db : DB) (threshold : ℚ)
    (jobIds : List String) (i : String) (hi : i ∈ jobIds) :
    GENERATE_THRESHOLD_DEFAULT = 1/2 ∧
    (∀ job, dbGet db i = some job → job.combined_match_score = some threshold →
      i ∈ generate_qualifying db threshold jobIds) ∧
    (∀ job s, dbGet db i = some job → job.combined_match_score = some s →
      s < threshold → i ∉ generate_qualifying db threshold jobIds) ∧
    (∀ job, dbGet db i = some job → job.combined_match_score = none →
      i ∉ generate_qualifying db threshold jobIds) := by
  refine ⟨rfl, ?_, ?_, ?_⟩
  · intro job hget hc
    refine List.mem_filter.mpr ⟨hi, ?_⟩
    simp [hget, hc]
  · intro job s hget hc hlt hmem
    have hp := (List.mem_filter.mp hmem).2
    simp [hget, hc] at hp
    exact absurd hp (not_le.mpr hlt)
  · intro job hget hc hmem
    have hp := (List.mem_filter.mp hmem).2
    simp [hget, hc] at hp

/-- Job exactly at the default threshold. -/
def thrJobAt : JobRecord :=
  { blankJob with id := "at", combined_match_score := some (1/2) }

/-- Job strictly below the default threshold. -/
def thrJobBelow : JobRecord :=
  { blankJob with id := "below", combined_match_score := some (4999/10000) }

/-- Job with no combined score. -/
def thrJobNone : JobRecord := { blankJob with id := "none" }

/-- Witness for C7 at threshold `0.5`: the job at exactly `0.5` is in
the qualifying set; the job at `0.4999` and the unscored one are not. -/
theorem generate_threshold_inclusive_witness :
    "at" ∈ generate_qualifying [thrJobAt, thrJobBelow, thrJobNone] (1/2)
      ["at", "below", "none"] ∧
    "below" ∉ generate_qualifying [thrJobAt, thrJobBelow, thrJobNone] (1/2)
      ["at", "below", "none"] ∧
    "none" ∉ generate_qualifying [thrJobAt, thrJobBelow, thrJobNone] (1/2)
      ["at", "below", "none"] := by
  refine ⟨?_, ?_, ?_⟩
  · exact (generate_threshold_inclusive [thrJobAt, thrJobBelow, thrJobNone] (1/2)
      ["at", "below", "none"] "at" (by decide)).2.1 thrJobAt rfl rfl
  · exact (generate_threshold_inclusive [thrJobAt, thrJobBelow, thrJobNone] (1/2)
      ["at", "below", "none"] "below" (by decide)).2.2.1 thrJobBelow
      (4999/10000) rfl rfl (by norm_num)
  · exact (generate_threshold_inclusive [thrJobAt, thrJobBelow, thrJobNone] (1/2)
      ["at", "below", "none"] "none" (by decide)).2.2.2 thrJobNone rfl rfl

/-! ### Ingestion guard (`src/ingester/ingester.py`, `validators.py`) -/

/-- `url_is_valid` (`validators.py`): the URL parses with scheme `http`
or `https` (schemes compare lower-cased) and a non-empty network
location.  Models the `urlparse`-based check for http/https URLs: the
scheme is the text before the first `:`, and a netloc exists only when
`//` follows, running up to the next `/`, `?` or `#`. -/
def url_is_valid (url : String) : Bool :=
  let cs := url.data
  let scheme := (cs.takeWhile (fun c => !(c == ':'))).map Char.toLower
  match cs.dropWhile (fun c => !(c == ':')) with
  | ':' :: r2 =>
    (scheme == "http".data || scheme == "https".data) &&
    (match r2 with
     | '/' :: '/' :: r3 =>
       !(r3.takeWhile (fun c => !(c == '/' || c == '?' || c == '#'))).isEmpty
     | _ => false)
  | _ => false

/-- What a job-board parser extracts from the fetched HTML (only the
fields the ingester checks or stores; `parsed.get(...)` of an absent key
is `none`). -/
structure Parsed where
  title : Option String
  company : Option String
  description : Option String
  deriving Repr, DecidableEq

/-- Environment of an `ingest_job` call: the HTML fetcher (`.error`
models a network exception) and the parser for the detected job source
(`.error` models a parsing exception; source detection and the three
per-board parsers are absorbed into the oracle, which sees the URL and
the HTML). -/
structure IngestEnv where
  fetch : String → Except Unit String
  parse : String → String → Except Unit Parsed

/-- The errors `ingest_job` raises. -/
inductive IngestError where
  | invalidUrl
  | duplicate (job_id : String) (date_found : ℕ)
  | network
  | parseError
  deriving Repr, DecidableEq

/-- The record committed on a successful parse. -/
def mkIngestJob (url source newId : String) (now : ℕ) (html : String)
    (parsed : Parsed) : JobRecord where
  id := newId
  job_url := url
  job_title := parsed.title.getD ""
  company_name := parsed.company.getD ""
  job_posting_html := some html
  job_description := parsed.description
  date_found := now
  status := "discovered"
  cosine_match_score := none
  reasoning_match_score := none
  combined_match_score := none
  reasoning_explanation := none
  cover_letter_draft := none
  cv_variant_generated := none
  source := source

/-- The record committed when parsing raises: raw HTML stored for manual
review, placeholder title and company. -/
def mkParseFailJob (url source newId : String) (now : ℕ) (html : String) :
    JobRecord where
  id := newId
  job_url := url
  job_title := "[parse failed]"
  company_name := "[parse failed]"
  job_posting_html := some html
  job_description := none
  date_found := now
  status := "discovered"
  cosine_match_score := none
  reasoning_match_score := none
  combined_match_score := none
  reasoning_explanation := none
  cover_letter_draft := none
  cv_variant_generated := none
  source := source

/-- `ingest_job(job_url, source)`: validate the URL, check for an
existing record by URL (raising `DuplicateJobError` with its id and
first-seen date), fetch, parse (committing a placeholder record before
raising `ParseError`), reject parses without title or company, and
otherwise commit and return the new record.  `newId` and `now` stand
for the generated primary key and `date_found` default. -/
def ingest_job (env : IngestEnv) (url source newId : String) (now : ℕ)
    (db : DB) : Except IngestError JobRecord × DB :=
  if ¬ url_is_valid url then (.error .invalidUrl, db)
  else
    match dbFindByUrl db url with
    | some existing => (.error (.duplicate existing.id existing.date_found), db)
    | none =>
      match env.fetch url with
      | .error _ => (.error .network, db)
      | .ok html =>
        match env.parse url html with
        | .error _ =>
          (.error .parseError, db ++ [mkParseFailJob url source newId now html])
        | .ok parsed =>
          if optStrFalsy parsed.title || optStrFalsy parsed.company then
            (.error .parseError, db)
          else
            (.ok (mkIngestJob url source newId now html parsed),
             db ++ [mkIngestJob url source newId now html parsed])

/-- C3: for a valid URL not yet in the store (fetch succeeding and the
parse yielding a title and company), the first admission appends exactly
one record, with status `discovered`, and returns it; a second admission
of the same URL — under any environment — fails with a duplicate error
carrying that record's id and first-seen date and appends nothing. -/
theorem ingest_idempotent (env env2 : IngestEnv)
    (url source source2 id1 id2 : String) (now now2 : ℕ) (db : DB)
    (hvalid : url_is_valid url = true)
    (hnew : dbFindByUrl db url = none)
    (html : String) (hfetch : env.fetch url = .ok html)
    (parsed : Parsed) (hparse : env.parse url html = .ok parsed)
    (htitle : optStrFalsy parsed.title = false)
    (hcompany : optStrFalsy parsed.company = false) :
    ∃ job : JobRecord,
      ingest_job env url source id1 now db = (.ok job, db ++ [job]) ∧
      job.status = "discovered" ∧ job.job_url = url ∧ job.id = id1 ∧
      job.date_found = now ∧
      ingest_job env2 url source2 id2 now2 (db ++ [job]) =
        (.error (.duplicate job.id job.date_found), db ++ [job]) := by
  refine ⟨mkIngestJob url source id1 now html parsed, ?_, rfl, rfl, rfl, rfl, ?_⟩
  · simp [ingest_job, hvalid, hnew, hfetch, hparse, htitle, hcompany]
  · have hdup : dbFindByUrl (db ++ [mkIngestJob url source id1 now html parsed])
        url = some (mkIngestJob url source id1 now html parsed) := by
      rw [dbFindByUrl_append_none db _ url hnew]
      exact if_pos rfl
    simp [ingest_job, hvalid, hdup]

/-- A fixed environment whose fetch and parse succeed. -/
def ingEnvOk : IngestEnv :=
  ⟨fun _ => .ok "<html>x</html>",
   fun _ _ => .ok ⟨some "Engineer", some "Acme", some "desc"⟩⟩

/-- Witness for C3 at `http://example.com/job1`. -/
theorem ingest_idempotent_witness :
    ∃ job : JobRecord,
      ingest_job ingEnvOk "http://example.com/job1" "manual" "id-1" 7 [] =
        (.ok job, [] ++ [job]) ∧
      job.status = "discovered" ∧ job.job_url = "http://example.com/job1" ∧
      job.id = "id-1" ∧ job.date_found = 7 ∧
      ingest_job ingEnvOk "http://example.com/job1" "manual" "id-2" 9
          ([] ++ [job]) =
        (.error (.duplicate job.id job.date_found), [] ++ [job]) :=
  ingest_idempotent ingEnvOk ingEnvOk "http://example.com/job1" "manual"
    "manual" "id-1" "id-2" 7 9 [] (by decide) rfl "<html>x</html>" rfl
    ⟨some "Engineer", some "Acme", some "desc"⟩ rfl rfl rfl

/-- C10: when the URL is valid and new and the HTML is fetched but the
parser raises, `ingest_job` still commits a durable placeholder record
(title and company `[parse failed]`, the raw HTML stored, status
`discovered`) before raising `ParseError`, so a later admission of the
same URL fails as a duplicate of that record instead of re-attempting
the parse. -/
theorem ingest_parse_failure_commits (env env2 : IngestEnv)
    (url source source2 id1 id2 : String) (now now2 : ℕ) (db : DB)
    (hvalid : url_is_valid url = true)
    (hnew : dbFindByUrl db url = none)
    (html : String) (hfetch : env.fetch url = .ok html)
    (hparse : env.parse url html = .error ()) :
    ingest_job env url source id1 now db =
      (.error .parseError, db ++ [mkParseFailJob url source id1 now html]) ∧
    (mkParseFailJob url source id1 now html).job_title = "[parse failed]" ∧
    (mkParseFailJob url source id1 now html).company_name = "[parse failed]" ∧
    (mkParseFailJob url source id1 now html).job_posting_html = some html ∧
    (mkParseFailJob url source id1 now html).status = "discovered" ∧
    ingest_job env2 url source2 id2 now2
        (db ++ [mkParseFailJob url source id1 now html]) =
      (.error (.duplicate id1 now),
       db ++ [mkParseFailJob url source id1 now html]) := by
  refine ⟨?_, rfl, rfl, rfl, rfl, ?_⟩
  · simp [ingest_job, hvalid, hnew, hfetch, hparse]
  · have hdup : dbFindByUrl (db ++ [mkParseFailJob url source id1 now html])
        url = some (mkParseFailJob url source id1 now html) := by
      rw [dbFindByUrl_append_none db _ url hnew]
      exact if_pos rfl
    simp [ingest_job, hvalid, hdup]
    exact ⟨rfl, rfl⟩

/-- A fixed environment whose parse raises. -/
def ingEnvParseFail : IngestEnv :=
  ⟨fun _ => .ok "<html>y</html>", fun _ _ => .error ()⟩

/-- Witness for C10 at `https://example.com/job2`. -/
theorem ingest_parse_failure_commits_witness :
    ingest_job ingEnvParseFail "https://example.com/job2" "manual" "id-3" 5 [] =
      (.error .parseError,
       [] ++ [mkParseFailJob "https://example.com/job2" "manual" "id-3" 5
         "<html>y</html>"]) ∧
    (mkParseFailJob "https://example.com/job2" "manual" "id-3" 5
      "<html>y</html>").job_title = "[parse failed]" ∧
    (mkParseFailJob "https://example.com/job2" "manual" "id-3" 5
      "<html>y</html>").company_name = "[parse failed]" ∧
    (mkParseFailJob "https://example.com/job2" "manual" "id-3" 5
      "<html>y</html>").job_posting_html = some "<html>y</html>" ∧
    (mkParseFailJob "https://example.com/job2" "manual" "id-3" 5
      "<html>y</html>").status = "discovered" ∧
    ingest_job ingEnvParseFail "https://example.com/job2" "manual" "id-4" 6
        ([] ++ [mkParseFailJob "https://example.com/job2" "manual" "id-3" 5
          "<html>y</html>"]) =
      (.error (.duplicate "id-3" 5),
       [] ++ [mkParseFailJob "https://example.com/job2" "manual" "id-3" 5
         "<html>y</html>"]) :=
  ingest_parse_failure_commits ingEnvParseFail ingEnvParseFail
    "https://example.com/job2" "manual" "manual" "id-3" "id-4" 5 6 []
    (by decide) rfl "<html>y</html>" rfl rfl

/-! ### Generator (`src/generator/main_logic.py`) -/

/-- Environment of a `generate_applications` call: the cover-letter and
CV-variant LLM oracles (prompt assembly from the job's fields and the
static assets is absorbed; `.error` models an API exception). -/
structure GenEnv where
  genCover : JobRecord → Except Unit String
  genCV : JobRecord → Except Unit String

/-- The write performed for a drafted job. -/
def setDrafted (cover : String) (cv : Option String) (r : JobRecord) : JobRecord :=
  { r with
      cover_letter_draft := some cover
      cv_variant_generated := cv
      status := "drafted" }

/-- Per-item outcome inside the generator loop. -/
inductive GenOutcome where
  | drafted (jobId : String)
  | failedItem
  deriving Repr, DecidableEq

/-- One iteration of the generator loop: a missing job or description
counts as failed; a cover-letter API error or a letter under 100
characters counts as failed; a CV-variant failure is non-fatal (stored
as absent); otherwise the drafts and `status = drafted` are committed. -/
def generateStep (env : GenEnv) (db : DB) (jobId : String) : DB × GenOutcome :=
  match dbGet db jobId with
  | none => (db, .failedItem)
  | some job =>
    if optStrFalsy job.job_description then (db, .failedItem)
    else
      match env.genCover job with
      | .error _ => (db, .failedItem)
      | .ok cover =>
        if cover.length < 100 then (db, .failedItem)
        else
          let cv := match env.genCV job with
            | .ok v => some v
            | .error _ => none
          (dbUpdate db jobId (setDrafted cover cv), .drafted jobId)

/-- The generator loop over the batch. -/
def generateLoop (env : GenEnv) : DB → List String → DB × List String × ℕ
  | db, [] => (db, [], 0)
  | db, jobId :: rest =>
    let s := generateStep env db jobId
    let t := generateLoop env s.1 rest
    match s.2 with
    | .drafted i => (t.1, i :: t.2.1, t.2.2)
    | .failedItem => (t.1, t.2.1, t.2.2 + 1)

/-- `generate_applications(job_ids)`: the drafted ids, the failure
count, and the updated store. -/
def generate_applications (env : GenEnv) (jobIds : List String) (db : DB) :
    (List String × ℕ) × DB :=
  let t := generateLoop env db jobIds
  ((t.2.1, t.2.2), t.1)

/-- Isolation in the generator: in a batch of three ids where the
cover-letter call for the second raises, the first and third are fully
drafted, the second is counted failed and left untouched. -/
theorem generate_isolation (env : GenEnv) (db : DB) (a b c : String)
    (hab : a ≠ b) (hac : a ≠ c) (hbc : b ≠ c)
    (ja jb jc : JobRecord)
    (hja : dbGet db a = some ja) (hjb : dbGet db b = some jb)
    (hjc : dbGet db c = some jc)
    (hda : optStrFalsy ja.job_description = false)
    (hdb : optStrFalsy jb.job_description = false)
    (hdc : optStrFalsy jc.job_description = false)
    (ca cc cva cvc : String)
    (hca : env.genCover ja = .ok ca) (hla : ¬ (ca.length < 100))
    (hcb : env.genCover jb = .error ())
    (hcc : env.genCover jc = .ok cc) (hlc : ¬ (cc.length < 100))
    (hva : env.genCV ja = .ok cva) (hvc : env.genCV jc = .ok cvc) :
    ∃ db2, generate_applications env [a, b, c] db = (([a, c], 1), db2) ∧
      dbGet db2 a = some (setDrafted ca (some cva) ja) ∧
      dbGet db2 c = some (setDrafted cc (some cvc) jc) ∧
      dbGet db2 b = some jb := by
  have h1 : generateStep env db a =
      (dbUpdate db a (setDrafted ca (some cva)), .drafted a) := by
    simp [generateStep, hja, hda, hca, hla, hva]
  have hgb1 : dbGet (dbUpdate db a (setDrafted ca (some cva))) b = some jb := by
    rw [dbGet_dbUpdate db a (setDrafted ca (some cva)) (fun r => rfl) b,
        if_neg (fun h => hab h.symm), hjb]
  have hgc1 : dbGet (dbUpdate db a (setDrafted ca (some cva))) c = some jc := by
    rw [dbGet_dbUpdate db a (setDrafted ca (some cva)) (fun r => rfl) c,
        if_neg (fun h => hac h.symm), hjc]
  have h2 : generateStep env (dbUpdate db a (setDrafted ca (some cva))) b =
      (dbUpdate db a (setDrafted ca (some cva)), .failedItem) := by
    simp [generateStep, hgb1, hdb, hcb]
  have h3 : generateStep env (dbUpdate db a (setDrafted ca (some cva))) c =
      (dbUpdate (dbUpdate db a (setDrafted ca (some cva))) c
        (setDrafted cc (some cvc)), .drafted c) := by
    simp [generateStep, hgc1, hdc, hcc, hlc, hvc]
  refine ⟨dbUpdate (dbUpdate db a (setDrafted ca (some cva))) c
    (setDrafted cc (some cvc)), ?_, ?_, ?_, ?_⟩
  · simp [generate_applications, generateLoop, h1, h2, h3]
  · rw [dbGet_dbUpdate _ c (setDrafted cc (some cvc)) (fun r => rfl) a, if_neg hac,
        dbGet_dbUpdate db a (setDrafted ca (some cva)) (fun r => rfl) a,
        if_pos rfl, hja]
    rfl
  · rw [dbGet_dbUpdate _ c (setDrafted cc (some cvc)) (fun r => rfl) c,
        if_pos rfl, hgc1]
    rfl
  · rw [dbGet_dbUpdate _ c (setDrafted cc (some cvc)) (fun r => rfl) b,
        if_neg hbc, hgb1]

/-- C8: stage isolation in every per-item batch loop — for a batch of
three ids where processing the second raises an internal error, the
first and third are still fully processed and reported, the second is
counted failed and left untouched, and no exception escapes the stage
call.  Stated for each of the three per-item loops in the repository:
the cosine matcher, the reasoning matcher and the generator (and, for
the two matcher services, that the call returns normally on any batch
once its batch-level precondition holds). -/
theorem stage_isolation (a b c : String)
    (hab : a ≠ b) (hac : a ≠ c) (hbc : b ≠ c) :
    (∀ (env : CosineEnv) (db : DB) (ja jb jc : JobRecord) (sa sc : ℚ),
      env.narrativeInit = .ok () →
      dbGet db a = some ja → dbGet db b = some jb → dbGet db c = some jc →
      optStrFalsy ja.job_description = false →
      optStrFalsy jb.job_description = false →
      optStrFalsy jc.job_description = false →
      env.score (ja.job_description.getD "") = .ok sa →
      env.score (jb.job_description.getD "") = .error () →
      env.score (jc.job_description.getD "") = .ok sc →
      ∃ db2, cosine_match_jobs env [a, b, c] db =
          (.ok ([(a, round4 sa), (c, round4 sc)], 1), db2) ∧
        dbGet db2 a = some (setCosine sa ja) ∧
        dbGet db2 c = some (setCosine sc jc) ∧
        dbGet db2 b = some jb) ∧
    (∀ (env : CosineEnv), env.narrativeInit = .ok () →
      ∀ ids (db0 : DB), ∃ out db3,
        cosine_match_jobs env ids db0 = (.ok out, db3)) ∧
    (∀ (env : ReasoningEnv) (db : DB) (ja jb jc : JobRecord) (sa sc : ℚ)
        (ea ec : String),
      env.gamingPcMacAddress = none →
      dbGet db a = some ja → dbGet db b = some jb → dbGet db c = some jc →
      ¬ (ja.cosine_match_score.getD 0 < MIN_COSINE_SCORE) →
      ¬ (jb.cosine_match_score.getD 0 < MIN_COSINE_SCORE) →
      ¬ (jc.cosine_match_score.getD 0 < MIN_COSINE_SCORE) →
      optStrFalsy ja.job_description = false →
      optStrFalsy jb.job_description = false →
      optStrFalsy jc.job_description = false →
      env.llm (ja.job_description.getD "") = .ok (sa, ea) →
      env.llm (jb.job_description.getD "") = .error () →
      env.llm (jc.job_description.getD "") = .ok (sc, ec) →
      ∃ db2, reasoning_match_jobs env [a, b, c] db =
          (.ok ([⟨a, round4 sa, ea⟩, ⟨c, round4 sc, ec⟩], 1), db2) ∧
        dbGet db2 a = some (setReasoning sa ea ja) ∧
        dbGet db2 c = some (setReasoning sc ec jc) ∧
        dbGet db2 b = some jb) ∧
    (∀ (env : ReasoningEnv), env.gamingPcMacAddress = none →
      ∀ ids (db0 : DB), ∃ out db3,
        reasoning_match_jobs env ids db0 = (.ok out, db3)) ∧
    (∀ (env : GenEnv) (db : DB) (ja jb jc : JobRecord) (ca cc cva cvc : String),
      dbGet db a = some ja → dbGet db b = some jb → dbGet db c = some jc →
      optStrFalsy ja.job_description = false →
      optStrFalsy jb.job_description = false →
      optStrFalsy jc.job_description = false →
      env.genCover ja = .ok ca → ¬ (ca.length < 100) →
      env.genCover jb = .error () →
      env.genCover jc = .ok cc → ¬ (cc.length < 100) →
      env.genCV ja = .ok cva → env.genCV jc = .ok cvc →
      ∃ db2, generate_applications env [a, b, c] db = (([a, c], 1), db2) ∧
        dbGet db2 a = some (setDrafted ca (some cva) ja) ∧
        dbGet db2 c = some (setDrafted cc (some cvc) jc) ∧
        dbGet db2 b = some jb) := by
  refine ⟨?_, ?_, ?_, ?_, ?_⟩
  · intro env db ja jb jc sa sc hnar hja hjb hjc hda hdb hdc hsa hsb hsc
    exact (cosine_isolation env db a b c hab hac hbc hnar ja jb jc hja hjb hjc
      hda hdb hdc sa sc hsa hsb hsc).1
  · intro env hnar ids db0
    refine ⟨((cosineLoop env db0 ids).2.1, (cosineLoop env db0 ids).2.2),
      (cosineLoop env db0 ids).1, ?_⟩
    simp [cosine_match_jobs, hnar]
  · intro env db ja jb jc sa sc ea ec hmac hja hjb hjc hga hgb hgc hda hdb hdc
      hsa hsb hsc
    exact reasoning_isolation env db a b c hab hac hbc hmac ja jb jc hja hjb
      hjc hga hgb hgc hda hdb hdc sa sc ea ec hsa hsb hsc
  · intro env hmac ids db0
    refine ⟨((reasoningLoop env db0 ids).2.1, (reasoningLoop env db0 ids).2.2),
      (reasoningLoop env db0 ids).1, ?_⟩
    simp [reasoning_match_jobs, hmac]
  · intro env db ja jb jc ca cc cva cvc hja hjb hjc hda hdb hdc hca hla hcb
      hcc hlc hva hvc
    exact generate_isolation env db a b c hab hac hbc ja jb jc hja hjb hjc
      hda hdb hdc ca cc cva cvc hca hla hcb hcc hlc hva hvc

/-- Concrete reasoning environment for the C8 witness: the LLM raises on
the description `"bad"` and otherwise answers `0.9` with explanation
`"why"`; no MAC address is configured. -/
def rIsoEnv : ReasoningEnv :=
  ⟨none, ⟨true, fun _ => true, fun _ => true⟩,
   fun d => if d = "bad" then .error () else .ok (9/10, "why")⟩

/-- `isoJobX` lifted over the cosine gate. -/
def rJobX : JobRecord := { isoJobX with cosine_match_score := some (8/10) }

/-- `isoJobY` lifted over the cosine gate. -/
def rJobY : JobRecord := { isoJobY with cosine_match_score := some (8/10) }

/-- `isoJobZ` lifted over the cosine gate. -/
def rJobZ : JobRecord := { isoJobZ with cosine_match_score := some (8/10) }

/-- A 120-character cover letter, above the 100-character floor. -/
def longCover : String := ⟨List.replicate 120 'a'⟩

/-- Concrete generator environment for the C8 witness: the cover-letter
call raises on the description `"bad"` and otherwise returns the long
letter; the CV call always answers `"cv"`. -/
def gIsoEnv : GenEnv :=
  ⟨fun j => if j.job_description = some "bad" then .error () else .ok longCover,
   fun _ => .ok "cv"⟩

/-- Witness for C8 on concrete three-id batches where the per-item call
for `y` raises: in each of the three stages, `x` and `z` are processed,
one failure is counted, `y` is untouched and no error escapes. -/
theorem stage_isolation_witness :
    (∃ db2, cosine_match_jobs isoEnv ["x", "y", "z"] [isoJobX, isoJobY, isoJobZ] =
        (.ok ([("x", round4 (7/10)), ("z", round4 (7/10))], 1), db2) ∧
      dbGet db2 "x" = some (setCosine (7/10) isoJobX) ∧
      dbGet db2 "z" = some (setCosine (7/10) isoJobZ) ∧
      dbGet db2 "y" = some isoJobY) ∧
    (∃ db2, reasoning_match_jobs rIsoEnv ["x", "y", "z"] [rJobX, rJobY, rJobZ] =
        (.ok ([⟨"x", round4 (9/10), "why"⟩, ⟨"z", round4 (9/10), "why"⟩], 1),
         db2) ∧
      dbGet db2 "x" = some (setReasoning (9/10) "why" rJobX) ∧
      dbGet db2 "z" = some (setReasoning (9/10) "why" rJobZ) ∧
      dbGet db2 "y" = some rJobY) ∧
    (∃ db2, generate_applications gIsoEnv ["x", "y", "z"]
        [isoJobX, isoJobY, isoJobZ] = ((["x", "z"], 1), db2) ∧
      dbGet db2 "x" = some (setDrafted longCover (some "cv") isoJobX) ∧
      dbGet db2 "z" = some (setDrafted longCover (some "cv") isoJobZ) ∧
      dbGet db2 "y" = some isoJobY) := by
  have h := stage_isolation "x" "y" "z" (by decide) (by decide) (by decide)
  refine ⟨?_, ?_, ?_⟩
  · exact h.1 isoEnv [isoJobX, isoJobY, isoJobZ] isoJobX isoJobY isoJobZ
      (7/10) (7/10) rfl rfl rfl rfl rfl rfl rfl rfl rfl rfl
  · exact h.2.2.1 rIsoEnv [rJobX, rJobY, rJobZ] rJobX rJobY rJobZ
      (9/10) (9/10) "why" "why" rfl rfl rfl rfl
      (by norm_num [rJobX, isoJobX, blankJob, MIN_COSINE_SCORE])
      (by norm_num [rJobY, isoJobY, blankJob, MIN_COSINE_SCORE])
      (by norm_num [rJobZ, isoJobZ, blankJob, MIN_COSINE_SCORE])
      rfl rfl rfl rfl rfl rfl
  · exact h.2.2.2.2 gIsoEnv [isoJobX, isoJobY, isoJobZ] isoJobX isoJobY isoJobZ
      longCover longCover "cv" "cv" rfl rfl rfl rfl rfl rfl rfl (by decide)
      rfl rfl (by decide) rfl rfl

/-! ### The score invariant over pipeline operations (C9) -/

/-- One stage invocation, as it affects the job store. -/
inductive PipelineOp where
  | ingestOp (env : IngestEnv) (url source newId : String) (now : ℕ)
  | cosineMatch (env : CosineEnv) (jobIds : List String)
  | reasoningMatch (env : ReasoningEnv) (jobIds : List String)
  | combineOp (jobIds : List String)
  | generateOp (env : GenEnv) (jobIds : List String)

/-- The store after one stage invocation. -/
def applyOp (db : DB) : PipelineOp → DB
  | .ingestOp env url source newId now => (ingest_job env url source newId now db).2
  | .cosineMatch env jobIds => (cosine_match_jobs env jobIds db).2
  | .reasoningMatch env jobIds => (reasoning_match_jobs env jobIds db).2
  | .combineOp jobIds => (combine_scores jobIds db).1
  | .generateOp env jobIds => (generate_applications env jobIds db).2

/-- The store after a sequence of stage invocations. -/
def runOps (db : DB) : List PipelineOp → DB
  | [] => db
  | op :: rest => runOps (applyOp db op) rest

/-- The direction of the spec's score invariant that the code maintains:
a defined combined score implies a defined cosine score. -/
abbrev scoreInv (r : JobRecord) : Prop :=
  r.combined_match_score.isSome → r.cosine_match_score.isSome

/-- The spec's claimed invariant: combined defined iff cosine defined. -/
abbrev scoreIffInv (r : JobRecord) : Prop :=
  r.combined_match_score.isSome ↔ r.cosine_match_score.isSome

theorem dbUpdate_forall (P : JobRecord → Prop) (db : DB) (j : String)
    (f : JobRecord → JobRecord) (hdb : ∀ r ∈ db, P r)
    (hf : ∀ r, dbGet db j = some r → P r → P (f r)) :
    ∀ r ∈ dbUpdate db j f, P r := by
  induction db with
  | nil => intro r hr; exact absurd hr (List.not_mem_nil r)
  | cons x rest ih =>
    simp only [dbUpdate]
    by_cases hx : x.id = j
    · rw [if_pos (beq_iff_eq.mpr hx)]
      intro r hr
      rcases List.mem_cons.mp hr with hr | hr
      · subst hr
        exact hf x (dbGet_cons_pos x rest j hx) (hdb x (List.mem_cons_self _ _))
      · exact hdb r (List.mem_cons_of_mem _ hr)
    · rw [if_neg (by simp [hx])]
      intro r hr
      rcases List.mem_cons.mp hr with hr | hr
      · subst hr
        exact hdb r (List.mem_cons_self _ _)
      · exact ih (fun r2 h2 => hdb r2 (List.mem_cons_of_mem _ h2))
          (fun r2 h2 => hf r2 ((dbGet_cons_neg x rest j hx) ▸ h2)) r hr

theorem dbAppend_forall (P : JobRecord → Prop) (db : DB) (job : JobRecord)
    (hdb : ∀ r ∈ db, P r) (hjob : P job) : ∀ r ∈ db ++ [job], P r := by
  intro r hr
  rcases List.mem_append.mp hr with h1 | h1
  · exact hdb r h1
  · rcases List.mem_cons.mp h1 with h1 | h1
    · exact h1 ▸ hjob
    · exact absurd h1 (List.not_mem_nil r)

theorem cosineStep_inv (env : CosineEnv) (db : DB) (j : String)
    (h : ∀ r ∈ db, scoreInv r) : ∀ r ∈ (cosineStep env db j).1, scoreInv r := by
  unfold cosineStep
  cases hget : dbGet db j with
  | none => exact h
  | some job =>
    by_cases hd : optStrFalsy job.job_description
    · simp only [hd, if_true]
      exact h
    · simp only [hd, if_false, Bool.false_eq_true]
      cases hs : env.score (job.job_description.getD "") with
      | error e => exact h
      | ok s =>
        exact dbUpdate_forall scoreInv db j (setCosine s) h
          (fun r _ _ => fun _ => rfl)

theorem cosineLoop_inv (env : CosineEnv) (ids : List String) :
    ∀ db : DB, (∀ r ∈ db, scoreInv r) →
      ∀ r ∈ (cosineLoop env db ids).1, scoreInv r := by
  induction ids with
  | nil => intro db h; exact h
  | cons j rest ih =>
    intro db h
    have h2 := ih (cosineStep env db j).1 (cosineStep_inv env db j h)
    simp only [cosineLoop]
    cases (cosineStep env db j).2 <;> exact h2

theorem reasoningStep_inv (env : ReasoningEnv) (db : DB) (j : String)
    (h : ∀ r ∈ db, scoreInv r) :
    ∀ r ∈ (reasoningStep env db j).1, scoreInv r := by
  unfold reasoningStep
  cases hget : dbGet db j with
  | none => exact h
  | some job =>
    by_cases hg : job.cosine_match_score.getD 0 < MIN_COSINE_SCORE
    · simp only [hg, if_true]
      exact h
    · simp only [hg, if_false]
      by_cases hd : optStrFalsy job.job_description
      · simp only [hd, if_true]
        exact h
      · simp only [hd, if_false, Bool.false_eq_true]
        cases hs : env.llm (job.job_description.getD "") with
        | error e => exact h
        | ok p =>
          exact dbUpdate_forall scoreInv db j (setReasoning p.1 p.2) h
            (fun r _ hr => hr)

theorem reasoningLoop_inv (env : ReasoningEnv) (ids : List String) :
    ∀ db : DB, (∀ r ∈ db, scoreInv r) →
      ∀ r ∈ (reasoningLoop env db ids).1, scoreInv r := by
  induction ids with
  | nil => intro db h; exact h
  | cons j rest ih =>
    intro db h
    have h1 := reasoningStep_inv env db j h
    have h2 := ih (reasoningStep env db j).1 h1
    simp only [reasoningLoop]
    cases (reasoningStep env db j).2 <;> exact h2

theorem combineStep_inv (db : DB) (acc : CombineResult) (j : String)
    (h : ∀ r ∈ db, scoreInv r) : ∀ r ∈ (combineStep db acc j).1, scoreInv r := by
  cases hget : dbGet db j with
  | none =>
    simp only [combineStep, hget]
    exact h
  | some job =>
    cases hc : job.cosine_match_score with
    | none =>
      simp only [combineStep, hget, hc]
      exact h
    | some c =>
      rw [combineStep_found db acc j job c hget hc]
      refine dbUpdate_forall scoreInv db j (setCombined _) h ?_
      intro r hr _ _
      rw [hget] at hr
      have hrc : r.cosine_match_score = some c := by
        rw [← Option.some.inj hr]
        exact hc
      simp [setCombined, hrc]

theorem combineLoop_inv (ids : List String) :
    ∀ (db : DB) (acc : CombineResult), (∀ r ∈ db, scoreInv r) →
      ∀ r ∈ (combineLoop db acc ids).1, scoreInv r := by
  induction ids with
  | nil => intro db acc h; exact h
  | cons j rest ih =>
    intro db acc h
    exact ih (combineStep db acc j).1 (combineStep db acc j).2
      (combineStep_inv db acc j h)

theorem generateStep_inv (env : GenEnv) (db : DB) (j : String)
    (h : ∀ r ∈ db, scoreInv r) :
    ∀ r ∈ (generateStep env db j).1, scoreInv r := by
  unfold generateStep
  cases hget : dbGet db j with
  | none => exact h
  | some job =>
    by_cases hd : optStrFalsy job.job_description
    · simp only [hd, if_true]
      exact h
    · simp only [hd, if_false, Bool.false_eq_true]
      cases hs : env.genCover job with
      | error e => exact h
      | ok cover =>
        by_cases hl : cover.length < 100
        · simp only [hl, if_true]
          exact h
        · simp only [hl, if_false]
          exact dbUpdate_forall scoreInv db j (setDrafted cover _) h
            (fun r _ hr => hr)

theorem generateLoop_inv (env : GenEnv) (ids : List String) :
    ∀ db : DB, (∀ r ∈ db, scoreInv r) →
      ∀ r ∈ (generateLoop env db ids).1, scoreInv r := by
  induction ids with
  | nil => intro db h; exact h
  | cons j rest ih =>
    intro db h
    have h1 := generateStep_inv env db j h
    have h2 := ih (generateStep env db j).1 h1
    simp only [generateLoop]
    cases (generateStep env db j).2 <;> exact h2

theorem ingest_job_inv (env : IngestEnv) (url source newId : String) (now : ℕ)
    (db : DB) (h : ∀ r ∈ db, scoreInv r) :
    ∀ r ∈ (ingest_job env url source newId now db).2, scoreInv r := by
  by_cases hv : url_is_valid url
  · cases hfind : dbFindByUrl db url with
    | some existing =>
      have he : (ingest_job env url source newId now db).2 = db := by
        simp [ingest_job, hv, hfind]
      rw [he]
      exact h
    | none =>
      cases hf : env.fetch url with
      | error e =>
        have he : (ingest_job env url source newId now db).2 = db := by
          simp [ingest_job, hv, hfind, hf]
        rw [he]
        exact h
      | ok html =>
        cases hp : env.parse url html with
        | error e =>
          have he : (ingest_job env url source newId now db).2 =
              db ++ [mkParseFailJob url source newId now html] := by
            simp [ingest_job, hv, hfind, hf, hp]
          rw [he]
          exact dbAppend_forall scoreInv db
            (mkParseFailJob url source newId now html) h (fun hx => hx)
        | ok parsed =>
          by_cases ht :
              (optStrFalsy parsed.title || optStrFalsy parsed.company) = true
          · have he : (ingest_job env url source newId now db).2 = db := by
              simp [ingest_job, hv, hfind, hf, hp, ht]
            rw [he]
            exact h
          · have he : (ingest_job env url source newId now db).2 =
                db ++ [mkIngestJob url source newId now html parsed] := by
              simp [ingest_job, hv, hfind, hf, hp,
                Bool.not_eq_true _ ▸ ht]
            rw [he]
            exact dbAppend_forall scoreInv db
              (mkIngestJob url source newId now html parsed) h (fun hx => hx)
  · have he : (ingest_job env url source newId now db).2 = db := by
      simp [ingest_job, hv]
    rw [he]
    exact h

theorem applyOp_inv (db : DB) (op : PipelineOp) (h : ∀ r ∈ db, scoreInv r) :
    ∀ r ∈ applyOp db op, scoreInv r := by
  cases op with
  | ingestOp env url source newId now => exact ingest_job_inv env url source newId now db h
  | cosineMatch env jobIds =>
    simp only [applyOp, cosine_match_jobs]
    cases env.narrativeInit with
    | error e => exact h
    | ok u => exact cosineLoop_inv env jobIds db h
  | reasoningMatch env jobIds =>
    simp only [applyOp, reasoning_match_jobs]
    cases env.gamingPcMacAddress with
    | some mac =>
      by_cases hw : (wake_and_wait env.wol 3 30).1
      · simp only [hw, if_true]
        exact reasoningLoop_inv env jobIds db h
      · simp only [hw, if_false, Bool.false_eq_true]
        exact h
    | none => exact reasoningLoop_inv env jobIds db h
  | combineOp jobIds => exact combineLoop_inv jobIds db ⟨0, 0, []⟩ h
  | generateOp env jobIds => exact generateLoop_inv env jobIds db h

/-- C9 (amended): starting from a store in which every record with a
defined combined score also has a defined cosine score, every sequence
of pipeline operations preserves that implication. -/
theorem combined_defined_implies_cosine_defined (ops : List PipelineOp) :
    ∀ db : DB, (∀ r ∈ db, scoreInv r) → ∀ r ∈ runOps db ops, scoreInv r := by
  induction ops with
  | nil => intro db h; exact h
  | cons op rest ih =>
    intro db h
    exact ih (applyOp db op) (applyOp_inv db op h)

/-- A cosine environment that scores every description `0.7`. -/
def cexEnv : CosineEnv := ⟨.ok (), fun _ => .ok (7/10)⟩

/-- C9 counterexample: the claimed "if and only if" invariant is not
preserved by the pipeline — it holds of the initial store, but after a
cosine-match operation the record has a cosine score and still no
combined score. -/
theorem combined_iff_cosine_counterexample :
    (∀ r ∈ ([blankJob] : DB), scoreIffInv r) ∧
    ¬ (∀ r ∈ runOps [blankJob] [.cosineMatch cexEnv ["j0"]], scoreIffInv r) := by
  constructor
  · decide
  · decide

/-- Witness for the amended C9 on a concrete run: cosine match then
combine, starting from an unscored record. -/
theorem combined_defined_implies_cosine_defined_witness :
    (∀ r ∈ ([blankJob] : DB), scoreInv r) ∧
    ∀ r ∈ runOps [blankJob] [.cosineMatch cexEnv ["j0"], .combineOp ["j0"]],
      scoreInv r :=
  ⟨by decide,
   combined_defined_implies_cosine_defined
     [.cosineMatch cexEnv ["j0"], .combineOp ["j0"]] [blankJob] (by decide)⟩

end JobSnatcher
